import Mathlib

/-!
Verification development for the SAL (Simple Access Layer) C++ client data model
(`sal_data.h`, namespace `sal::object`): the attribute type hierarchy with its
encode/decode protocol.  The definitions below are a shallow embedding of that
header: Poco JSON objects become association lists of `JVal`, Poco `Dynamic::Var`
leaves become `Var`, C++ exceptions become `Except Err`, machine integers become
`Nat`/`Int` with explicit `% 2^w` where wraparound matters, and IEEE floats are
carried as opaque bit patterns (no float arithmetic occurs anywhere in the
modelled code paths).  Undefined behaviour of the C++ (out-of-bounds
`std::vector` indexing, dereferencing a null `Poco::SharedPtr`) is modelled by
dedicated error values, since the embedding must be total.
-/

/-- The `AttributeType` enumeration of `sal_data.h` (all enumerators kept). -/
inductive AttributeType where
  | ATTR_NULL
  | ATTR_SCALAR
  | ATTR_INT8
  | ATTR_INT16
  | ATTR_INT32
  | ATTR_INT64
  | ATTR_UINT8
  | ATTR_UINT16
  | ATTR_UINT32
  | ATTR_UINT64
  | ATTR_FLOAT32
  | ATTR_FLOAT64
  | ATTR_BOOL
  | ATTR_STRING
  | ATTR_ARRAY
  | ATTR_DICTIONARY
  | ATTR_DATA_OBJECT
deriving DecidableEq, Repr

/-- The closed set of native C++ value types usable as `Atomic<T>` values or
`Array<T>` elements: `int8_t..int64_t`, `uint8_t..uint64_t`, `float`, `double`,
`bool`, `std::string`. -/
inductive DType where
  | dint8
  | dint16
  | dint32
  | dint64
  | duint8
  | duint16
  | duint32
  | duint64
  | dfloat32
  | dfloat64
  | dbool
  | dstring
deriving DecidableEq, Repr

/-- The mathematical carrier of each native type.  Signed integers are `Int`,
unsigned are `Nat`; floats are carried as their IEEE bit pattern (`Nat`) —
the modelled code only ever stores and reloads float values, never computes
with them. -/
@[reducible] def Payload : DType → Type
  | .dint8 => Int
  | .dint16 => Int
  | .dint32 => Int
  | .dint64 => Int
  | .duint8 => Nat
  | .duint16 => Nat
  | .duint32 => Nat
  | .duint64 => Nat
  | .dfloat32 => Nat
  | .dfloat64 => Nat
  | .dbool => Bool
  | .dstring => String

instance (dt : DType) : DecidableEq (Payload dt) :=
  match dt with
  | .dint8 | .dint16 | .dint32 | .dint64 => inferInstanceAs (DecidableEq Int)
  | .duint8 | .duint16 | .duint32 | .duint64 => inferInstanceAs (DecidableEq Nat)
  | .dfloat32 | .dfloat64 => inferInstanceAs (DecidableEq Nat)
  | .dbool => inferInstanceAs (DecidableEq Bool)
  | .dstring => inferInstanceAs (DecidableEq String)

/-- Value-initialised element (what `std::vector::resize` fills new slots with). -/
def defaultPayload : (dt : DType) → Payload dt
  | .dint8 => 0
  | .dint16 => 0
  | .dint32 => 0
  | .dint64 => 0
  | .duint8 => 0
  | .duint16 => 0
  | .duint32 => 0
  | .duint64 => 0
  | .dfloat32 => 0
  | .dfloat64 => 0
  | .dbool => false
  | .dstring => ""

/-- Type registry `to_dtype<T>()` of `sal_data.h` (the chain of
`std::is_same` comparisons), restricted to the native value types; the class
branches (`Dictionary`, `IArray`, `Null`) are not values of `DType`. -/
def to_dtype : DType → AttributeType
  | .dint64 => .ATTR_INT64
  | .dint32 => .ATTR_INT32
  | .dint16 => .ATTR_INT16
  | .dint8 => .ATTR_INT8
  | .duint64 => .ATTR_UINT64
  | .duint32 => .ATTR_UINT32
  | .duint16 => .ATTR_UINT16
  | .duint8 => .ATTR_UINT8
  | .dfloat32 => .ATTR_FLOAT32
  | .dfloat64 => .ATTR_FLOAT64
  | .dbool => .ATTR_BOOL
  | .dstring => .ATTR_STRING

/-- Type registry `to_dtype_name<T>()` of `sal_data.h` (numpy-style wire
type names). -/
def to_dtype_name : DType → String
  | .dint64 => "int64"
  | .dint32 => "int32"
  | .dint16 => "int16"
  | .dint8 => "int8"
  | .duint64 => "uint64"
  | .duint32 => "uint32"
  | .duint16 => "uint16"
  | .duint8 => "uint8"
  | .dfloat32 => "float32"
  | .dfloat64 => "float64"
  | .dbool => "bool"
  | .dstring => "string"

/-- A scalar JSON leaf (`Poco::Dynamic::Var`): either the JSON null / empty
state or a typed native value. -/
inductive Var where
  | vnull
  | atom (dt : DType) (p : Payload dt)

/-- A Poco JSON tree value: a scalar leaf, an array, or an object
(association list from key to value). -/
inductive JVal where
  | var (v : Var)
  | jarr (xs : List JVal)
  | jobj (fields : List (String × JVal))

/-- A `Poco::JSON::Object`: what every `encode`/`decode` in `sal_data.h`
consumes and produces. -/
abbrev JObj := List (String × JVal)

/-- Shorthand for a JSON string leaf. -/
def jstr (s : String) : JVal := JVal.var (Var.atom .dstring s)

/-- Shorthand for a JSON `uint64` leaf (what `encode_shape` emits). -/
def ju64 (n : Nat) : JVal := JVal.var (Var.atom .duint64 n)

/-- C++ failure channels observable from the modelled code.  `sal` is
`SALException` (the uniform decode-error kind), `json` is any low-level
Poco JSON / `Dynamic::Var` access or conversion failure, `nullPtr` is
`Poco::NullPointerException` from dereferencing a null `SharedPtr`,
`outOfRange` is `std::out_of_range`, and `ub` marks executions that are
undefined behaviour in C++ (unchecked `std::vector` indexing out of
bounds); `ub` is also used for exhaustion of the recursion fuel of the
decode dispatcher, a modelling artifact (the C++ recursion is unbounded). -/
inductive Err where
  | sal (msg : String)
  | json (msg : String)
  | nullPtr
  | outOfRange (msg : String)
  | ub (msg : String)
deriving DecidableEq, Repr

/-- Rendering of a scalar leaf inside `stringify`. -/
def stringifyVar : Var → String
  | .vnull => "null"
  | .atom .dstring s => "\"" ++ s ++ "\""
  | .atom .dint8 n => toString n
  | .atom .dint16 n => toString n
  | .atom .dint32 n => toString n
  | .atom .dint64 n => toString n
  | .atom .duint8 n => toString n
  | .atom .duint16 n => toString n
  | .atom .duint32 n => toString n
  | .atom .duint64 n => toString n
  | .atom .dfloat32 n => "float32bits:" ++ toString n
  | .atom .dfloat64 n => "float64bits:" ++ toString n
  | .atom .dbool b => if b then "true" else "false"

mutual

/-- Model of `Poco::JSON::Object::stringify` (used only to build diagnostic
messages inside wrapped decode errors; its exact text is never load-bearing). -/
def stringifyVal : JVal → String
  | .var v => stringifyVar v
  | .jarr xs => "[" ++ stringifyList xs ++ "]"
  | .jobj fs => "\x7b" ++ stringifyFields fs ++ "\x7d"

def stringifyList : List JVal → String
  | [] => ""
  | [x] => stringifyVal x
  | x :: y :: xs => stringifyVal x ++ "," ++ stringifyList (y :: xs)

def stringifyFields : List (String × JVal) → String
  | [] => ""
  | [(k, v)] => "\"" ++ k ++ "\":" ++ stringifyVal v
  | (k, v) :: f :: fs => "\"" ++ k ++ "\":" ++ stringifyVal v ++ "," ++ stringifyFields (f :: fs)

end

/-- Stringify a whole object. -/
def stringifyObj (j : JObj) : String := stringifyVal (JVal.jobj j)

/-- The `e.what()` text of a caught exception, as used by
`SAL_REPORT_DECODE_ERROR`. -/
def errWhat : Err → String
  | .sal m => m
  | .json m => m
  | .nullPtr => "Pointer is null"
  | .outOfRange m => m
  | .ub m => m

/-- The `SAL_REPORT_DECODE_ERROR(e, json)` macro of `sal_data.h`: builds the
uniform diagnostic message (failing function, cause, dump of the offending
wire object) and raises it as a `SALException`. -/
def reportDecodeError (fn : String) (e : Err) (j : JObj) : Err :=
  Err.sal ("JSON object does not define a valid SAL object in function: " ++ fn ++ "\n"
    ++ errWhat e ++ "\n json object: \n" ++ stringifyObj j)

/-- Key lookup in a `Poco::JSON::Object` (`Object::get`); `none` is the
empty `Dynamic::Var` Poco returns for an absent key. -/
def objGet (j : JObj) (k : String) : Option JVal := List.lookup k j

/-- Model of `Object::has`. -/
def hasKeyB (j : JObj) (k : String) : Bool := (objGet j k).isSome

/-- Model of `Object::getValue<std::string>(key)`: `Dynamic::Var::convert`
renders strings, integers and booleans; on an absent key the empty Var
fails to convert; float bit patterns are left unmodelled (no claimed code
path converts a float-valued field to a string). -/
def getStringE (j : JObj) (k : String) : Except Err String :=
  match objGet j k with
  | some (.var (.atom .dstring s)) => .ok s
  | some (.var (.atom .dint8 n)) => .ok (toString n)
  | some (.var (.atom .dint16 n)) => .ok (toString n)
  | some (.var (.atom .dint32 n)) => .ok (toString n)
  | some (.var (.atom .dint64 n)) => .ok (toString n)
  | some (.var (.atom .duint8 n)) => .ok (toString n)
  | some (.var (.atom .duint16 n)) => .ok (toString n)
  | some (.var (.atom .duint32 n)) => .ok (toString n)
  | some (.var (.atom .duint64 n)) => .ok (toString n)
  | some (.var (.atom .dbool b)) => .ok (if b then "true" else "false")
  | some _ => .error (.json "cannot convert value to string")
  | none => .error (.json "cannot convert empty value")

/-- Model of `Object::getObject(key)`: extracting `Object::Ptr` from the
stored Var throws on an absent key or a non-object value. -/
def getObjectE (j : JObj) (k : String) : Except Err JObj :=
  match objGet j k with
  | some (.jobj o) => .ok o
  | some _ => .error (.json "bad cast: value is not a JSON object")
  | none => .error (.json "bad cast: empty value is not a JSON object")

/-- Model of `Object::getArray(key)`. -/
def getArrayE (j : JObj) (k : String) : Except Err (List JVal) :=
  match objGet j k with
  | some (.jarr xs) => .ok xs
  | some _ => .error (.json "bad cast: value is not a JSON array")
  | none => .error (.json "bad cast: empty value is not a JSON array")

/-- Model of `Object::isArray(key)` (no-throw predicate). -/
def isArrayKeyB (j : JObj) (k : String) : Bool :=
  match objGet j k with
  | some (.jarr _) => true
  | _ => false

/-- Model of `Object::getValue<T>(key)` for a native value type `T`: exact
extraction of the stored typed value.  Poco's cross-numeric `Var`
conversions are not modelled — every claimed code path extracts the very
type that was stored, or fails before extraction. -/
def getPayloadE (dt : DType) (j : JObj) (k : String) : Except Err (Payload dt) :=
  match objGet j k with
  | some (.var (.atom dt2 p)) =>
    if h : dt2 = dt then .ok (h ▸ p)
    else .error (.json "cannot convert value to the requested native type")
  | some _ => .error (.json "cannot convert value to the requested native type")
  | none => .error (.json "cannot convert empty value")

/-- An `Atomic<T>` instance: the `Attribute` base fields set by the
constructor (`m_type`, `m_type_name`) plus the stored value. -/
structure AtomicObj (dt : DType) where
  mtype : AttributeType
  mtypeName : String
  value : Payload dt

/-- The `Atomic<T>(T _value)` constructor: binds tag and wire name through
the type registry. -/
def mkAtomic (dt : DType) (v : Payload dt) : AtomicObj dt :=
  { mtype := to_dtype dt, mtypeName := to_dtype_name dt, value := v }

/-- `Atomic<T>::encode`: produces the wire object with the instance's
`type_name()` and its value. -/
def atomicEncode (dt : DType) (a : AtomicObj dt) : JObj :=
  [("type", jstr a.mtypeName), ("value", JVal.var (Var.atom dt a.value))]

/-- Body of the `try` block of `Atomic<T>::decode`: check the wire `type`
name against `to_dtype_name<T>()`, then extract `value` as `T`. -/
def atomicDecodeInner (dt : DType) (j : JObj) : Except Err (AtomicObj dt) :=
  match getStringE j "type" with
  | .error e => .error e
  | .ok t =>
    if t = to_dtype_name dt then
      match getPayloadE dt j "value" with
      | .error e => .error e
      | .ok v => .ok (mkAtomic dt v)
    else .error (.sal "type name in json does not match template datatype")

/-- `Atomic<T>::decode`: the `catch (...)` block turns any internal failure
into a single `SALException` carrying a dump of the offending object. -/
def atomicDecodeT (dt : DType) (j : JObj) : Except Err (AtomicObj dt) :=
  match atomicDecodeInner dt j with
  | .ok a => .ok a
  | .error _ => .error (.sal
      ("JSON object does not define a valid SAL scalar/atomic attribute. json obejct is \n"
        ++ stringifyObj j))

/-- Unchecked `std::vector<uint64_t>` read with a possibly negative index
(`int16_t` in the source); `none` models the out-of-bounds access, which is
undefined behaviour in C++. -/
def vecGetN (xs : List Nat) (i : Int) : Option Nat :=
  if 0 ≤ i then xs[i.toNat]? else none

/-- Unchecked `std::vector<uint64_t>` write with a possibly negative index;
`none` models the out-of-bounds write (undefined behaviour in C++). -/
def vecSetN (xs : List Nat) (i : Int) (v : Nat) : Option (List Nat) :=
  if 0 ≤ i ∧ i.toNat < xs.length then some (xs.set i.toNat v) else none

/-- The `while (i >= 0)` stride loop of the `IArray` constructor:
`m_strides[i] = m_strides[i + 1] * m_shape[i + 1]; i--`, re-indexed by the
number of remaining iterations (`c + 1` iterations remain exactly when the
current loop index `i` equals `c`), so the recursion is structural. -/
def stridesLoop (shape : List Nat) : Nat → List Nat → Option (List Nat)
  | 0, s => some s
  | c + 1, s =>
    match vecGetN s ((c : Int) + 1), vecGetN shape ((c : Int) + 1) with
    | some a, some b =>
      (match vecSetN s (c : Int) (a * b) with
       | some s2 => stridesLoop shape c s2
       | none => none)
    | _, _ => none

/-- The stride computation of the `IArray(ShapeType _shape)` constructor:
`m_dimension` is a `uint8_t` (hence the `% 256`), the stride vector is
resized to `m_dimension` zeros, then `m_strides[m_dimension - 1] = 1` is
written unconditionally — for an empty shape that is a write at index `-1`
into an empty vector, i.e. undefined behaviour, modelled as `none`.  The
loop then starts at `i = m_dimension - 2`, i.e. with `m_dimension - 1`
remaining iterations. -/
def computeStrides (shape : List Nat) : Option (List Nat) :=
  let dim := shape.length % 256
  let s0 := List.replicate dim 0
  match vecSetN s0 ((dim : Int) - 1) 1 with
  | none => none
  | some s1 => stridesLoop shape (dim - 1) s1

/-- An `Array<T>` instance (also an `IArray` and an `Attribute`): base tag
and name, element tag and name, `m_dimension` (`uint8_t`), shape, strides,
the flattened buffer, and the summary flag. -/
structure ArrObj (dt : DType) where
  mtype : AttributeType
  mtypeName : String
  elType : AttributeType
  elName : String
  mdim : Nat
  shape : List Nat
  strides : List Nat
  data : List (Payload dt)
  isSummary : Bool

/-- The `Array<T>(ShapeType, AttributeType, std::string)` constructor: the
`IArray` base constructor computes the strides (undefined behaviour for an
empty shape, see `computeStrides`), then the buffer is resized to the
product of the extents (`uint64_t` arithmetic). -/
def mkArrayWith (dt : DType) (ty : AttributeType) (tyName : String) (shape : List Nat) :
    Except Err (ArrObj dt) :=
  match computeStrides shape with
  | none => .error (.ub "out-of-bounds write in stride computation")
  | some strides =>
    let size := shape.foldl (fun a d => a * d % 2 ^ 64) 1
    .ok { mtype := .ATTR_ARRAY, mtypeName := "array", elType := ty, elName := tyName,
          mdim := shape.length % 256, shape := shape, strides := strides,
          data := List.replicate size (defaultPayload dt), isSummary := false }

/-- The public `Array<T>(ShapeType _shape)` constructor: element tag and
name come from the type registry. -/
def mkArrayD (dt : DType) (shape : List Nat) : Except Err (ArrObj dt) :=
  mkArrayWith dt (to_dtype dt) (to_dtype_name dt) shape

/-- The `BoolArray(ShapeType)` constructor: storage is `uint8_t`, but the
element tag is `ATTR_BOOL` and the element name is `"bool"`. -/
def mkBoolArray (shape : List Nat) : Except Err (ArrObj .duint8) :=
  mkArrayWith .duint8 .ATTR_BOOL "bool" shape

/-- The bounds-and-accumulate loop of `Array<T>::at` (`for i <
m_dimension`, re-indexed by the count of remaining iterations so the
recursion is structural): checks
`dim_index[i] < 0 || uint64_t(dim_index[i]) > m_shape[i] - 1UL` — note the
unsigned wraparound of `m_shape[i] - 1UL` when an extent is `0` — and
accumulates `element_index += dim_index[i] * m_strides[i]` in `uint64_t`. -/
def atIndexLoop (dt : DType) (a : ArrObj dt) (dimIndex : List Int) :
    Nat → Nat → Nat → Except Err Nat
  | 0, _, acc => .ok acc
  | r + 1, i, acc =>
    match dimIndex[i]?, a.shape[i]? with
    | some di, some sh =>
      if di < 0 ∨ ((sh + (2 ^ 64 - 1)) % 2 ^ 64) < di.toNat then
        .error (.outOfRange "An array index is missing or is out of bounds.")
      else
        match a.strides[i]? with
        | some st => atIndexLoop dt a dimIndex r (i + 1) ((acc + di.toNat * st % 2 ^ 64) % 2 ^ 64)
        | none => .error (.ub "unchecked read out of bounds")
    | _, _ => .error (.ub "unchecked read out of bounds")

/-- The `Array<T>::at(i0, ..., i9)` bounds-checked accessor: rejects more
than 10 dimensions, checks every index against the shape, and finally reads
`data[element_index]` without a bounds check (undefined behaviour when the
computed flat index is outside the buffer, e.g. for a zero extent). -/
def arrAt (dt : DType) (a : ArrObj dt)
    (i0 i1 i2 i3 i4 i5 i6 i7 i8 i9 : Int) : Except Err (Payload dt) :=
  if 10 < a.mdim then
    .error (.outOfRange "The at() method can only be used with arrays of 10 dimensions of less.")
  else
    match atIndexLoop dt a [i0, i1, i2, i3, i4, i5, i6, i7, i8, i9] a.mdim 0 0 with
    | .error e => .error e
    | .ok idx =>
      match a.data[idx]? with
      | some v => .ok v
      | none => .error (.ub "unchecked read past end of buffer")

/-- The two-index `Array<T>::operator()(row, column)` addressing:
`row * m_strides[0] + column` with no bounds check (`none` when the stride
vector is empty, which the C++ reads out of bounds).  The claims are about
the flattened index this access resolves to. -/
def arrParenIndex (dt : DType) (a : ArrObj dt) (row col : Nat) : Option Nat :=
  match a.strides[0]? with
  | some s0 => some ((row * s0 % 2 ^ 64 + col) % 2 ^ 64)
  | none => none

/-- `Array<T>::encode_shape`: the shape as a JSON array of `uint64` leaves. -/
def encodeShapeJ (shape : List Nat) : JVal := JVal.jarr (shape.map ju64)

/-- Conversion of one JSON array element by `getElement<uint64_t>`:
integer and boolean Vars convert (negative values fail the range check);
other kinds are left unmodelled (no claimed input carries them in a shape). -/
def jsonGetUInt64 : JVal → Except Err Nat
  | .var (.atom .duint8 n) => .ok n
  | .var (.atom .duint16 n) => .ok n
  | .var (.atom .duint32 n) => .ok n
  | .var (.atom .duint64 n) => .ok n
  | .var (.atom .dint8 n) => if 0 ≤ n then .ok n.toNat else .error (.json "value out of range")
  | .var (.atom .dint16 n) => if 0 ≤ n then .ok n.toNat else .error (.json "value out of range")
  | .var (.atom .dint32 n) => if 0 ≤ n then .ok n.toNat else .error (.json "value out of range")
  | .var (.atom .dint64 n) => if 0 ≤ n then .ok n.toNat else .error (.json "value out of range")
  | .var (.atom .dbool b) => .ok (if b then 1 else 0)
  | _ => .error (.json "cannot convert value to unsigned integer")

/-- Element-wise traversal of the encoded shape array. -/
def decodeShapeList : List JVal → Except Err (List Nat)
  | [] => .ok []
  | x :: rest =>
    match jsonGetUInt64 x with
    | .error e => .error e
    | .ok n =>
      match decodeShapeList rest with
      | .error e => .error e
      | .ok ns => .ok (n :: ns)

/-- `Array<T>::decode_shape`: the loop index is a `uint8_t`, so for more
than 255 entries the C++ loop never terminates (modelled as `ub`). -/
def decodeShapeE (xs : List JVal) : Except Err (List Nat) :=
  if 255 < xs.length then .error (.ub "uint8_t loop index wraps before reaching the array size")
  else decodeShapeList xs

/-- Base64url digit (the `BASE64_URL_ENCODING` alphabet used by the Poco
encoder on POCO >= 1.8: `A..Z a..z 0..9 - _`). -/
def b64CharOf (n : Nat) : Char :=
  if n < 26 then Char.ofNat (65 + n)
  else if n < 52 then Char.ofNat (97 + (n - 26))
  else if n < 62 then Char.ofNat (48 + (n - 52))
  else if n = 62 then Char.ofNat 45
  else Char.ofNat 95

/-- Base64 encoding of a byte stream, three bytes to four digits, padded
with `=` (`Poco::Base64Encoder`, an external collaborator consumed as an
opaque service; modelled concretely so the codec is executable). -/
def base64EncodeGo : List Nat → List Char
  | b0 :: b1 :: b2 :: rest =>
    b64CharOf (b0 / 4) :: b64CharOf (b0 % 4 * 16 + b1 / 16) ::
      b64CharOf (b1 % 16 * 4 + b2 / 64) :: b64CharOf (b2 % 64) :: base64EncodeGo rest
  | [b0, b1] => [b64CharOf (b0 / 4), b64CharOf (b0 % 4 * 16 + b1 / 16),
      b64CharOf (b1 % 16 * 4), Char.ofNat 61]
  | [b0] => [b64CharOf (b0 / 4), b64CharOf (b0 % 4 * 16), Char.ofNat 61, Char.ofNat 61]
  | [] => []

/-- String form of the base64 encoding. -/
def base64Encode (bytes : List Nat) : String := String.mk (base64EncodeGo bytes)

/-- Value of a base64url digit (`none` for padding and foreign characters,
which the decoder stream skips). -/
def b64ValOf (c : Char) : Option Nat :=
  let n := c.toNat
  if 65 ≤ n ∧ n ≤ 90 then some (n - 65)
  else if 97 ≤ n ∧ n ≤ 122 then some (n - 97 + 26)
  else if 48 ≤ n ∧ n ≤ 57 then some (n - 48 + 52)
  else if n = 45 then some 62
  else if n = 95 then some 63
  else none

/-- Base64 decoding of a digit stream back to bytes. -/
def base64DecodeGo : List Nat → List Nat
  | v0 :: v1 :: v2 :: v3 :: rest =>
    (v0 * 4 + v1 / 16) :: (v1 % 16 * 16 + v2 / 4) :: (v2 % 4 * 64 + v3) :: base64DecodeGo rest
  | [v0, v1, v2] => [v0 * 4 + v1 / 16, v1 % 16 * 16 + v2 / 4]
  | [v0, v1] => [v0 * 4 + v1 / 16]
  | _ => []

/-- `Poco::Base64Decoder` as a byte stream: decode the digits, skipping
padding. -/
def base64Decode (s : String) : List Nat := base64DecodeGo (s.data.filterMap b64ValOf)

/-- The `sizeof(T)` of each native element type on the modelled (LP64)
platform; `std::string` has no raw-byte serialization — the string code
paths use the nested-list encoding instead and never touch raw bytes. -/
def dtypeByteCount : DType → Nat
  | .dint8 => 1
  | .duint8 => 1
  | .dbool => 1
  | .dint16 => 2
  | .duint16 => 2
  | .dint32 => 4
  | .duint32 => 4
  | .dfloat32 => 4
  | .dint64 => 8
  | .duint64 => 8
  | .dfloat64 => 8
  | .dstring => 32

/-- Little-endian byte rendering of a natural number into `k` bytes. -/
def natLEBytes : Nat → Nat → List Nat
  | 0, _ => []
  | k + 1, v => v % 256 :: natLEBytes k (v / 256)

/-- Natural number from little-endian bytes. -/
def natOfLEBytes : List Nat → Nat
  | [] => 0
  | b :: rest => b % 256 + 256 * natOfLEBytes rest

/-- Two's-complement reading of a `w`-bit pattern. -/
def intOfTwos (w : Nat) (n : Nat) : Int :=
  if n < 2 ^ (w - 1) then (n : Int) else (n : Int) - 2 ^ w

/-- The native in-memory byte image of one element (little-endian, two's
complement for the signed types), as `reinterpret_cast<const char*>` exposes
it to the base64 encoder.  The `dstring` case is unreachable: the encoder
takes the nested-list path for string arrays. -/
def payloadBytes : (dt : DType) → Payload dt → List Nat
  | .dint8, v => natLEBytes 1 (v % 2 ^ 8).toNat
  | .dint16, v => natLEBytes 2 (v % 2 ^ 16).toNat
  | .dint32, v => natLEBytes 4 (v % 2 ^ 32).toNat
  | .dint64, v => natLEBytes 8 (v % 2 ^ 64).toNat
  | .duint8, v => natLEBytes 1 v
  | .duint16, v => natLEBytes 2 v
  | .duint32, v => natLEBytes 4 v
  | .duint64, v => natLEBytes 8 v
  | .dfloat32, v => natLEBytes 4 v
  | .dfloat64, v => natLEBytes 8 v
  | .dbool, v => [if v then 1 else 0]
  | .dstring, _ => List.replicate 32 0

/-- Reading one element back from its byte image. -/
def bytesToPayload : (dt : DType) → List Nat → Payload dt
  | .dint8, bs => intOfTwos 8 (natOfLEBytes bs)
  | .dint16, bs => intOfTwos 16 (natOfLEBytes bs)
  | .dint32, bs => intOfTwos 32 (natOfLEBytes bs)
  | .dint64, bs => intOfTwos 64 (natOfLEBytes bs)
  | .duint8, bs => natOfLEBytes bs
  | .duint16, bs => natOfLEBytes bs
  | .duint32, bs => natOfLEBytes bs
  | .duint64, bs => natOfLEBytes bs
  | .dfloat32, bs => natOfLEBytes bs
  | .dfloat64, bs => natOfLEBytes bs
  | .dbool, bs => natOfLEBytes bs ≠ 0
  | .dstring, _ => ""

/-- `Array<T>::encode_data`: base64 text of the raw buffer bytes in
native layout. -/
def encode_dataM (dt : DType) (buf : List (Payload dt)) : String :=
  base64Encode (buf.foldr (fun p acc => payloadBytes dt p ++ acc) [])

/-- Element recovery of `Array<T>::decode_data`: the decoder stream fills
`size * sizeof(T)` buffer bytes with the decoded base64 bytes; bytes the
stream does not cover keep the zero-initialised buffer contents. -/
def elemsFromBytes (dt : DType) : Nat → List Nat → List (Payload dt)
  | 0, _ => []
  | c + 1, bs =>
    bytesToPayload dt (bs.take (dtypeByteCount dt)) ::
      elemsFromBytes dt c (bs.drop (dtypeByteCount dt))

/-- `Array<T>::decode_data(arr, b64)`: decode the base64 text and
reinterpret the bytes as `size` elements. -/
def decode_dataM (dt : DType) (size : Nat) (b64 : String) : List (Payload dt) :=
  elemsFromBytes dt size (base64Decode b64)

/-- Unchecked `(*array)[i] = v` vector write used by the nested-list
decoder (`ub` when past the end of the buffer). -/
def bufSetE (buf : List α) (i : Nat) (v : α) : Except Err (List α) :=
  if i < buf.length then .ok (buf.set i v) else .error (.ub "unchecked write past end of buffer")

/-- `Poco::JSON::Array::getElement<T>(i)` for a native element type:
out-of-range indices yield an empty Var whose conversion throws; exact
typed extraction as in `getPayloadE`. -/
def jsonArrGetElem (dt : DType) (xs : List JVal) (i : Nat) : Except Err (Payload dt) :=
  match xs[i]? with
  | some (.var (.atom dt2 p)) =>
    if h : dt2 = dt then .ok (h ▸ p)
    else .error (.json "cannot convert element to the requested native type")
  | some _ => .error (.json "cannot convert element to the requested native type")
  | none => .error (.json "cannot convert empty value")

/-- `Poco::JSON::Array::getArray(i)`. -/
def jsonArrGetArr (xs : List JVal) (i : Nat) : Except Err (List JVal) :=
  match xs[i]? with
  | some (.jarr sub) => .ok sub
  | some _ => .error (.json "bad cast: element is not a JSON array")
  | none => .error (.json "bad cast: empty value is not a JSON array")

/-- Innermost loop of `Array<T>::decode_data_from_json_array`: for
`i < ext`, `(*array)[offset + i] = json->getElement<T>(i)`. -/
def decodeJLInner (dt : DType) (json : List JVal) (offset ext i : Nat)
    (buf : List (Payload dt)) : Except Err (List (Payload dt)) :=
  if i < ext then
    match jsonArrGetElem dt json i with
    | .error e => .error e
    | .ok p =>
      match bufSetE buf (offset + i) p with
      | .error e => .error e
      | .ok b2 => decodeJLInner dt json offset ext (i + 1) b2
  else .ok buf
termination_by ext - i

mutual

/-- Dimension dispatch of `Array<T>::decode_data_from_json_array`: at the
last dimension fill elements, otherwise recurse into the nested arrays with
offset `offset + i * strides[d]`.  `restShape` is `shape.drop d`; the
zero-dimension case reads `shape()[dimension]` out of bounds in C++. -/
def decodeJLDims (dt : DType) (strides restShape : List Nat) (d : Nat) (json : List JVal)
    (offset : Nat) (buf : List (Payload dt)) : Except Err (List (Payload dt)) :=
  match restShape with
  | [] => .error (.ub "nested-list decode on a zero-dimension array")
  | [ext] => decodeJLInner dt json offset ext 0 buf
  | ext :: rest => decodeJLOuter dt strides rest d json offset ext 0 buf
termination_by (restShape.length, 1, 0)

/-- Outer loop of the nested-list decoder over one non-innermost dimension. -/
def decodeJLOuter (dt : DType) (strides rest : List Nat) (d : Nat) (json : List JVal)
    (offset ext i : Nat) (buf : List (Payload dt)) : Except Err (List (Payload dt)) :=
  if i < ext then
    match jsonArrGetArr json i with
    | .error e => .error e
    | .ok sub =>
      match strides[d]? with
      | none => .error (.ub "unchecked read out of bounds")
      | some st =>
        match decodeJLDims dt strides rest (d + 1) sub (offset + i * st) buf with
        | .error e => .error e
        | .ok b2 => decodeJLOuter dt strides rest d json offset ext (i + 1) b2
  else .ok buf
termination_by (rest.length + 1, 0, ext - i)

end

/-- Innermost loop of `Array<T>::encode_data_to_json_array`: the strings of
the last dimension, read from the buffer without a bounds check. -/
def encodeJAInner (dt : DType) (data : List (Payload dt)) (offset ext i : Nat) :
    Except Err (List JVal) :=
  if i < ext then
    match data[offset + i]? with
    | some p =>
      match encodeJAInner dt data offset ext (i + 1) with
      | .ok xs => .ok (JVal.var (Var.atom dt p) :: xs)
      | .error e => .error e
    | none => .error (.ub "unchecked read past end of buffer")
  else .ok []
termination_by ext - i

mutual

/-- Dimension dispatch of `Array<T>::encode_data_to_json_array` (nested
JSON arrays mirroring the shape, used for string arrays). -/
def encodeJADims (dt : DType) (data : List (Payload dt)) (strides restShape : List Nat)
    (d offset : Nat) : Except Err JVal :=
  match restShape with
  | [] => .error (.ub "nested-list encode on a zero-dimension array")
  | [ext] =>
    match encodeJAInner dt data offset ext 0 with
    | .ok xs => .ok (JVal.jarr xs)
    | .error e => .error e
  | ext :: rest =>
    match encodeJAOuter dt data strides rest d offset ext 0 with
    | .ok xs => .ok (JVal.jarr xs)
    | .error e => .error e
termination_by (restShape.length, 1, 0)

/-- Outer loop of the nested-list encoder over one non-innermost dimension. -/
def encodeJAOuter (dt : DType) (data : List (Payload dt)) (strides rest : List Nat)
    (d offset ext i : Nat) : Except Err (List JVal) :=
  if i < ext then
    match strides[d]? with
    | none => .error (.ub "unchecked read out of bounds")
    | some st =>
      match encodeJADims dt data strides rest (d + 1) (offset + i * st) with
      | .error e => .error e
      | .ok v =>
        match encodeJAOuter dt data strides rest d offset ext (i + 1) with
        | .ok xs => .ok (v :: xs)
        | .error e => .error e
  else .ok []
termination_by (rest.length + 1, 0, ext - i)

end

/-- `Array<T>::encoding()`: `"list"` for string elements, else `"base64"`
(the `bool` alternative is commented out in the source). -/
def arrEncoding (dt : DType) (a : ArrObj dt) : String :=
  if a.elName = "string" then "list" else "base64"

/-- `Array<T>::encode_summary()`: only the `shape` key is written (the
`type` and `element_type` lines are absent or commented out in the source). -/
def arrayEncodeSummary (dt : DType) (a : ArrObj dt) : JObj :=
  [("shape", encodeShapeJ a.shape)]

/-- `Array<T>::encode()`: the array definition object (element type name,
shape, encoding, data) nested under `value`, with the instance's
`type_name()` at the top; a summary instance has no data and encoding
fails with a `SALException`; string elements take the nested-list path,
all other element types the base64 path. -/
def arrayEncode (dt : DType) (a : ArrObj dt) : Except Err JObj :=
  if a.isSummary then .error (.sal "this is an summary without data")
  else
    match (if a.elName = "string"
           then encodeJADims dt a.data a.strides a.shape 0 0
           else .ok (jstr (encode_dataM dt a.data))) with
    | .error e => .error e
    | .ok dataVal =>
      .ok [("type", jstr a.mtypeName),
           ("value", JVal.jobj
             [("type", jstr a.elName), ("shape", encodeShapeJ a.shape),
              ("encoding", jstr (arrEncoding dt a)), ("data", dataVal)])]

/-- `Array<T>::decode(json)`.  There is deliberately no `try`/`catch` here
(see the `CONSIDER` comment in the source), so every low-level failure
propagates to the caller unwrapped.  The summary branch executes
`arr->m_is_summary = true` while `arr` is still the null `SharedPtr` it was
initialised to, so dereferencing throws `Poco::NullPointerException`
before the summary object is ever allocated.  The full branch accepts an
element type name equal to `to_dtype_name<T>()` or `"bool"`, requires
`encoding` in `base64 | list`, decodes the shape, constructs the array
(`new Array<T>(shape)`, so element tag and name come from the registry for
`T`), and populates the buffer via the matching data path. -/
def arrayDecodeT (dt : DType) (j : JObj) : Except Err (ArrObj dt) :=
  match getStringE j "type" with
  | .error e => .error e
  | .ok t =>
    if t = "array" then
      if hasKeyB j "value" = false then .error Err.nullPtr
      else
        match getObjectE j "value" with
        | .error e => .error e
        | .ok ad =>
          match getStringE ad "type" with
          | .error e => .error e
          | .ok inputType =>
            if inputType ≠ "bool" ∧ inputType ≠ to_dtype_name dt then
              .error (.sal "internal element type and input json data type does not match")
            else
              match getStringE ad "encoding" with
              | .error e => .error e
              | .ok enc =>
                if ¬ (enc = "base64" ∨ enc = "list") then .error (.sal "encoding is not supported")
                else
                  match getArrayE ad "shape" with
                  | .error e => .error e
                  | .ok shapeJ =>
                    match decodeShapeE shapeJ with
                    | .error e => .error e
                    | .ok shape =>
                      match mkArrayD dt shape with
                      | .error e => .error e
                      | .ok arr =>
                        if arr.elName = "string" then
                          match getArrayE ad "data" with
                          | .error e => .error e
                          | .ok dataJ =>
                            match decodeJLDims dt arr.strides arr.shape 0 dataJ 0 arr.data with
                            | .error e => .error e
                            | .ok buf => .ok { arr with isSummary := false, data := buf }
                        else
                          match getStringE ad "data" with
                          | .error e => .error e
                          | .ok dataStr =>
                            .ok { arr with
                                  isSummary := false
                                  data := decode_dataM dt arr.data.length dataStr }
    else .error (.sal "type does not match, `array` is expected here")

/-- The closed variant set of decoded attributes (`Attribute::Ptr` results
of the decoders): `Null`, `Atomic<T>`, `Array<T>` (with its storage type),
and `Dictionary` (summary flag and key-to-child map). -/
inductive AttrObj : Type where
  | nullA : AttrObj
  | atomic (dt : DType) (a : AtomicObj dt) : AttrObj
  | arr (dt : DType) (a : ArrObj dt) : AttrObj
  | dict (isSummary : Bool) (attributes : List (String × AttrObj)) : AttrObj

/-- `Dictionary::set` / `std::map::operator[]` assignment: insert or
overwrite.  `std::map` keeps keys sorted, but no modelled observation
depends on iteration order, so an association-list update suffices. -/
def mapSet : List (String × AttrObj) → String → AttrObj → List (String × AttrObj)
  | [], k, a => [(k, a)]
  | (k1, v1) :: rest, k, a =>
    if k = k1 then (k, a) :: rest else (k1, v1) :: mapSet rest k a

/-- `Dictionary::has(key)` (`attributes.count(key)`). -/
def dictHasA : AttrObj → String → Bool
  | .dict _ m, k => (List.lookup k m).isSome
  | _, _ => false

/-- `Dictionary::get(key)` / `operator[]` (`attributes.at(key)`, which
throws `std::out_of_range` for an absent key). -/
def dictGetA : AttrObj → String → Except Err AttrObj
  | .dict _ m, k =>
    (match List.lookup k m with
     | some a => .ok a
     | none => .error (.outOfRange "map::at: key not found"))
  | _, _ => .error (.ub "not a dictionary")

/-- `Dictionary::encode_summary()`: a fresh empty object — no `type`, no
`items`, no per-child data (the `count` line is commented out in the
source). -/
def dictEncodeSummary (_attributes : List (String × AttrObj)) : JObj := []

/-- `Object::isNull(key)` applied to a present entry: true exactly for the
JSON null leaf. -/
def isNullJ : JVal → Bool
  | .var .vnull => true
  | _ => false

/-- The free function `decode_array(json)`: wraps only its initial element
type lookup (`SAL_REPORT_DECODE_ERROR`), then routes on the element type
name to `Array<T>::decode` of the matching element type.  The `"bool"`
branch calls `BoolArray::decode`, which resolves to the inherited static
`Array<uint8_t>::decode`. -/
def decode_arrayM (j : JObj) : Except Err AttrObj :=
  match ((match getObjectE j "value" with
          | .error e => .error e
          | .ok ad => getStringE ad "type") : Except Err String) with
  | .error e => .error (reportDecodeError "decode_array" e j)
  | .ok el =>
    if el = "int8" then (arrayDecodeT .dint8 j).map (AttrObj.arr .dint8)
    else if el = "int16" then (arrayDecodeT .dint16 j).map (AttrObj.arr .dint16)
    else if el = "int32" then (arrayDecodeT .dint32 j).map (AttrObj.arr .dint32)
    else if el = "int64" then (arrayDecodeT .dint64 j).map (AttrObj.arr .dint64)
    else if el = "uint8" then (arrayDecodeT .duint8 j).map (AttrObj.arr .duint8)
    else if el = "uint16" then (arrayDecodeT .duint16 j).map (AttrObj.arr .duint16)
    else if el = "uint32" then (arrayDecodeT .duint32 j).map (AttrObj.arr .duint32)
    else if el = "uint64" then (arrayDecodeT .duint64 j).map (AttrObj.arr .duint64)
    else if el = "float32" then (arrayDecodeT .dfloat32 j).map (AttrObj.arr .dfloat32)
    else if el = "float64" then (arrayDecodeT .dfloat64 j).map (AttrObj.arr .dfloat64)
    else if el = "bool" then (arrayDecodeT .duint8 j).map (AttrObj.arr .duint8)
    else if el = "string" then (arrayDecodeT .dstring j).map (AttrObj.arr .dstring)
    else .error (.sal ("data type string `" ++ el ++ "` is not supported"))

/-- `Dictionary::decode_items`: iterate the entries of `items`; a JSON
null value is skipped (the documented drop policy), any other non-object
value is a structural error, and every object is dispatched recursively
through the given decoder and `set` into the container. -/
def decodeItemsWith (dec : JObj → Except Err AttrObj) :
    List (String × JVal) → List (String × AttrObj) → Except Err (List (String × AttrObj))
  | [], m => .ok m
  | (k, v) :: rest, m =>
    if isNullJ v then decodeItemsWith dec rest m
    else
      match v with
      | JVal.jobj o =>
        (match dec o with
         | .error e => .error e
         | .ok a => decodeItemsWith dec rest (mapSet m k a))
      | _ => .error (.sal "all valid attributes definitions must be JSON objects")

/-- Body of the `try` block of `Dictionary::decode`: validate the type
name, then decode the children when `items` is present (full object) or
return a summary dictionary when it is absent. -/
def dictDecodeBody (dec : JObj → Except Err AttrObj) (j : JObj) : Except Err AttrObj :=
  match getStringE j "type" with
  | .error e => .error e
  | .ok t =>
    if t = "dictionary" then
      if hasKeyB j "items" then
        match getObjectE j "items" with
        | .error e => .error e
        | .ok contents =>
          match decodeItemsWith dec contents [] with
          | .error e => .error e
          | .ok m => .ok (AttrObj.dict false m)
      else .ok (AttrObj.dict true [])
    else .error (.sal "data type does not match")

/-- The `catch (std::exception&)` of `Dictionary::decode`: every internal
failure is re-raised through `SAL_REPORT_DECODE_ERROR`, i.e. as one
`SALException` with context, cause and object dump. -/
def wrapDictErr (j : JObj) : Except Err AttrObj → Except Err AttrObj
  | .ok a => .ok a
  | .error e => .error (reportDecodeError "decode" e j)

/-- The free dispatcher `sal::object::decode(json)`: read the `type` name
(its absence or non-convertibility is reported as an invalid attribute),
then route to the matching variant decoder.  `fuel` bounds the
dictionary-child recursion depth; the C++ recursion is unbounded and the
fuel-exhaustion error is a modelling artifact only. -/
def decodeAttrGo : Nat → JObj → Except Err AttrObj
  | 0, _ => .error (.ub "recursion fuel exhausted")
  | fuel + 1, j =>
    match getStringE j "type" with
    | .error _ => .error (.sal "JSON object does not define a valid SAL attribute.")
    | .ok id =>
      if id = "dictionary" then wrapDictErr j (dictDecodeBody (decodeAttrGo fuel) j)
      else if id = "array" then decode_arrayM j
      else if id = "int8" then (atomicDecodeT .dint8 j).map (AttrObj.atomic .dint8)
      else if id = "int16" then (atomicDecodeT .dint16 j).map (AttrObj.atomic .dint16)
      else if id = "int32" then (atomicDecodeT .dint32 j).map (AttrObj.atomic .dint32)
      else if id = "int64" then (atomicDecodeT .dint64 j).map (AttrObj.atomic .dint64)
      else if id = "uint8" then (atomicDecodeT .duint8 j).map (AttrObj.atomic .duint8)
      else if id = "uint16" then (atomicDecodeT .duint16 j).map (AttrObj.atomic .duint16)
      else if id = "uint32" then (atomicDecodeT .duint32 j).map (AttrObj.atomic .duint32)
      else if id = "uint64" then (atomicDecodeT .duint64 j).map (AttrObj.atomic .duint64)
      else if id = "float32" then (atomicDecodeT .dfloat32 j).map (AttrObj.atomic .dfloat32)
      else if id = "float64" then (atomicDecodeT .dfloat64 j).map (AttrObj.atomic .dfloat64)
      else if id = "bool" then (atomicDecodeT .dbool j).map (AttrObj.atomic .dbool)
      else if id = "string" then (atomicDecodeT .dstring j).map (AttrObj.atomic .dstring)
      else .error (.sal "JSON object does not define a valid SAL attribute.")

/-- `Dictionary::decode(json)` as called with recursion budget `fuel` for
its children (the dispatcher hands children to `decodeAttrGo fuel`). -/
def dictDecode (fuel : Nat) (j : JObj) : Except Err AttrObj :=
  wrapDictErr j (dictDecodeBody (decodeAttrGo fuel) j)

/-- The wire object `Dictionary::encode` produces around a given encoded
items object, and the shape every full dictionary wire object has. -/
def wireDictOf (items : List (String × JVal)) : JObj :=
  [("type", jstr "dictionary"), ("items", JVal.jobj items)]


theorem lookup_mapSet_self (m : List (String × AttrObj)) (k : String) (a : AttrObj) :
    List.lookup k (mapSet m k a) = some a := by
  induction m with
  | nil => simp [mapSet, List.lookup]
  | cons kv rest ih =>
    obtain ⟨k1, v1⟩ := kv
    by_cases hk : k = k1
    · simp [mapSet, hk, List.lookup]
    · have hb : (k == k1) = false := beq_eq_false_iff_ne.mpr hk
      simp [mapSet, hk, List.lookup, hb, ih]

theorem lookup_mapSet_ne (m : List (String × AttrObj)) (k k' : String) (a : AttrObj)
    (h : k' ≠ k) : List.lookup k' (mapSet m k a) = List.lookup k' m := by
  have hb : (k' == k) = false := beq_eq_false_iff_ne.mpr h
  induction m with
  | nil => simp [mapSet, List.lookup, hb]
  | cons kv rest ih =>
    obtain ⟨k1, v1⟩ := kv
    by_cases hk : k = k1
    · subst hk
      simp [mapSet, List.lookup, hb]
    · by_cases hk2 : k' = k1
      · have hb2 : (k' == k1) = true := beq_iff_eq.mpr hk2
        simp [mapSet, hk, List.lookup, hb2]
      · have hb2 : (k' == k1) = false := beq_eq_false_iff_ne.mpr hk2
        simp [mapSet, hk, List.lookup, hb2, ih]

theorem decodeItems_lookup_of_not_mem (dec : JObj → Except Err AttrObj)
    (items : List (String × JVal)) (k : String) :
    ∀ acc m, k ∉ items.map Prod.fst → decodeItemsWith dec items acc = Except.ok m →
      List.lookup k m = List.lookup k acc := by
  induction items with
  | nil =>
    intro acc m _ h
    unfold decodeItemsWith at h
    injection h with h
    rw [h]
  | cons kv rest ih =>
    obtain ⟨k0, v⟩ := kv
    intro acc m hk h
    have hk0 : k ≠ k0 := by
      intro e
      exact hk (by simp [e])
    have hkr : k ∉ rest.map Prod.fst := by
      intro e
      exact hk (by simp [e])
    unfold decodeItemsWith at h
    by_cases hnull : isNullJ v
    · rw [if_pos hnull] at h
      exact ih acc m hkr h
    · rw [if_neg hnull] at h
      cases v with
      | var vv => exact Except.noConfusion h
      | jarr xs => exact Except.noConfusion h
      | jobj o =>
        have h2 : (match dec o with
                   | Except.error e => Except.error e
                   | Except.ok a => decodeItemsWith dec rest (mapSet acc k0 a)) =
            Except.ok m := h
        cases hdec : dec o with
        | error e => rw [hdec] at h2; exact Except.noConfusion h2
        | ok a =>
          rw [hdec] at h2
          rw [ih _ m hkr h2, lookup_mapSet_ne _ _ _ _ hk0]

theorem decodeItems_null_skipped (dec : JObj → Except Err AttrObj)
    (items : List (String × JVal)) (k : String) :
    ∀ acc m, (items.map Prod.fst).Nodup → decodeItemsWith dec items acc = Except.ok m →
      (k, JVal.var Var.vnull) ∈ items → List.lookup k acc = none →
      List.lookup k m = none := by
  induction items with
  | nil =>
    intro _ _ _ _ hmem
    exact absurd hmem (List.not_mem_nil _)
  | cons kv rest ih =>
    obtain ⟨k0, v⟩ := kv
    intro acc m hnd h hmem hacc
    rcases List.mem_cons.mp hmem with heq | hmem2
    · injection heq with h1 h2
      subst h1
      subst h2
      unfold decodeItemsWith at h
      rw [if_pos (by rfl)] at h
      have hnotin : k ∉ rest.map Prod.fst := (List.nodup_cons.mp hnd).1
      rw [decodeItems_lookup_of_not_mem dec rest k acc m hnotin h, hacc]
    · have hk0 : k ≠ k0 := by
        intro e
        subst e
        exact (List.nodup_cons.mp hnd).1 (List.mem_map.mpr ⟨_, hmem2, rfl⟩)
      have hndr : (rest.map Prod.fst).Nodup := (List.nodup_cons.mp hnd).2
      unfold decodeItemsWith at h
      by_cases hnull : isNullJ v
      · rw [if_pos hnull] at h
        exact ih acc m hndr h hmem2 hacc
      · rw [if_neg hnull] at h
        cases v with
        | var vv => exact Except.noConfusion h
        | jarr xs => exact Except.noConfusion h
        | jobj o =>
          have h2 : (match dec o with
                     | Except.error e => Except.error e
                     | Except.ok a => decodeItemsWith dec rest (mapSet acc k0 a)) =
              Except.ok m := h
          cases hdec : dec o with
          | error e => rw [hdec] at h2; exact Except.noConfusion h2
          | ok a =>
            rw [hdec] at h2
            refine ih _ m hndr h2 hmem2 ?_
            rw [lookup_mapSet_ne _ _ _ _ hk0]
            exact hacc

theorem decodeItems_obj_inserted (dec : JObj → Except Err AttrObj)
    (items : List (String × JVal)) (k : String) (o : JObj) :
    ∀ acc m, (items.map Prod.fst).Nodup → decodeItemsWith dec items acc = Except.ok m →
      (k, JVal.jobj o) ∈ items → ∃ a, dec o = Except.ok a ∧ List.lookup k m = some a := by
  induction items with
  | nil =>
    intro _ _ _ _ hmem
    exact absurd hmem (List.not_mem_nil _)
  | cons kv rest ih =>
    obtain ⟨k0, v⟩ := kv
    intro acc m hnd h hmem
    rcases List.mem_cons.mp hmem with heq | hmem2
    · injection heq with h1 h2
      subst h1
      subst h2
      unfold decodeItemsWith at h
      rw [if_neg (by simp [isNullJ])] at h
      have h2 : (match dec o with
                 | Except.error e => Except.error e
                 | Except.ok a => decodeItemsWith dec rest (mapSet acc k a)) =
          Except.ok m := h
      cases hdec : dec o with
      | error e => rw [hdec] at h2; exact Except.noConfusion h2
      | ok a =>
        rw [hdec] at h2
        refine ⟨a, rfl, ?_⟩
        have hnotin : k ∉ rest.map Prod.fst := (List.nodup_cons.mp hnd).1
        rw [decodeItems_lookup_of_not_mem dec rest k _ m hnotin h2, lookup_mapSet_self]
    · have hndr : (rest.map Prod.fst).Nodup := (List.nodup_cons.mp hnd).2
      unfold decodeItemsWith at h
      by_cases hnull : isNullJ v
      · rw [if_pos hnull] at h
        exact ih acc m hndr h hmem2
      · rw [if_neg hnull] at h
        cases v with
        | var vv => exact Except.noConfusion h
        | jarr xs => exact Except.noConfusion h
        | jobj o2 =>
          have h2 : (match dec o2 with
                     | Except.error e => Except.error e
                     | Except.ok a => decodeItemsWith dec rest (mapSet acc k0 a)) =
              Except.ok m := h
          cases hdec : dec o2 with
          | error e => rw [hdec] at h2; exact Except.noConfusion h2
          | ok a => rw [hdec] at h2; exact ih _ m hndr h2 hmem2

theorem mkArrayD_names (dt : DType) (s : List Nat) (a : ArrObj dt)
    (h : mkArrayD dt s = Except.ok a) :
    a.elName = to_dtype_name dt ∧ a.elType = to_dtype dt := by
  unfold mkArrayD mkArrayWith at h
  cases hc : computeStrides s with
  | none => rw [hc] at h; exact Except.noConfusion h
  | some st =>
    rw [hc] at h
    injection h with h
    subst h
    exact ⟨rfl, rfl⟩

/-- Claim C1: for every supported native type `T` and every value `v`,
decoding the wire object produced by encoding `Atomic<T>(v)` yields an
`Atomic<T>` whose value equals `v` (indeed the identical instance), and the
constructed instance's tag and wire type name equal the type registry
entries `to_dtype<T>()` and `to_dtype_name<T>()`. -/
theorem sal_c1_atomic_roundtrip (dt : DType) (v : Payload dt) :
    atomicDecodeT dt (atomicEncode dt (mkAtomic dt v)) = Except.ok (mkAtomic dt v) ∧
    (mkAtomic dt v).mtype = to_dtype dt ∧
    (mkAtomic dt v).mtypeName = to_dtype_name dt := by
  cases dt <;> exact ⟨rfl, rfl, rfl⟩

/-- The summary wire object of an array of shape `[2]`:
`type = "array"`, a `shape` key, and no `value` payload key. -/
def c2wire : JObj := [("type", jstr "array"), ("shape", JVal.jarr [ju64 2])]

/-- Claim C2 (the code contradicts it): for a wire object of type
`"array"` without a `value` payload key, `Array<T>::decode` executes
`arr->m_is_summary = true` on the still-null `SharedPtr` `arr` and so
throws `Poco::NullPointerException` instead of returning a summary array
with `is_summary() = true`, an empty buffer and the decoded shape. -/
theorem sal_c2_summary_decode_null_deref (dt : DType) :
    arrayDecodeT dt c2wire = Except.error Err.nullPtr := by
  cases dt <;> rfl

/-- Claim C4: an array constructed with shape `[3,4]` has strides `[4,1]`,
and two-index access `(row = 1, col = 2)` resolves to flattened buffer
index `1*4 + 2 = 6`. -/
theorem sal_c4_strides (dt : DType) (a : ArrObj dt)
    (h : mkArrayD dt [3, 4] = Except.ok a) :
    a.strides = [4, 1] ∧ arrParenIndex dt a 1 2 = some 6 := by
  have hv : mkArrayD dt [3, 4] = Except.ok
      { mtype := .ATTR_ARRAY, mtypeName := "array", elType := to_dtype dt,
        elName := to_dtype_name dt, mdim := 2, shape := [3, 4], strides := [4, 1],
        data := List.replicate 12 (defaultPayload dt), isSummary := false } := rfl
  rw [hv] at h
  injection h with h
  subst h
  exact ⟨rfl, rfl⟩

/-- Claim C4 witness: the theorem instantiated at a concrete `uint8` array. -/
theorem sal_c4_strides_witness :
    ({ mtype := .ATTR_ARRAY, mtypeName := "array", elType := .ATTR_UINT8,
       elName := "uint8", mdim := 2, shape := [3, 4], strides := [4, 1],
       data := List.replicate 12 0, isSummary := false } : ArrObj .duint8).strides = [4, 1] ∧
    arrParenIndex .duint8
      { mtype := .ATTR_ARRAY, mtypeName := "array", elType := .ATTR_UINT8,
        elName := "uint8", mdim := 2, shape := [3, 4], strides := [4, 1],
        data := List.replicate 12 0, isSummary := false } 1 2 = some 6 :=
  sal_c4_strides .duint8 _ rfl

/-- Claim C5 (the code contradicts it): constructing any `Array<T>` with
the empty shape `[]` makes the `IArray` base constructor write
`m_strides[-1] = 1` into an empty stride vector — an out-of-bounds write
(undefined behaviour) — before the one-element buffer is ever allocated,
so the claimed length-1 buffer and encode/decode round trip are never
reached. -/
theorem sal_c5_empty_shape_oob (dt : DType) (ty : AttributeType) (nm : String) :
    mkArrayWith dt ty nm [] = Except.error (Err.ub "out-of-bounds write in stride computation") ∧
    computeStrides [] = none := by
  exact ⟨rfl, rfl⟩

/-- The evaluation of `at(0)` on an array of shape `[0]` (one dimension of
extent zero). -/
def c6result : Except Err (Payload .duint8) :=
  match mkArrayD .duint8 [0] with
  | .ok a => arrAt .duint8 a 0 (-1) (-1) (-1) (-1) (-1) (-1) (-1) (-1) (-1)
  | .error e => .error e

/-- Claim C6 (the code contradicts it on zero extents): on an array of
shape `[0]`, the index `0` lies outside `[0, shape[0]) = [0, 0)`, yet
`at(0)` raises no `OutOfRangeError`: the bound `m_shape[0] - 1UL`
underflows to `2^64 - 1`, the check passes, and the method performs an
unchecked read past the end of the empty buffer (undefined behaviour). -/
theorem sal_c6_zero_extent_no_range_error :
    c6result = Except.error (Err.ub "unchecked read past end of buffer") ∧
    ∀ m, Err.ub "unchecked read past end of buffer" ≠ Err.outOfRange m :=
  ⟨rfl, fun _ h => Err.noConfusion h⟩

/-- Claim C8: decoding `Atomic<T>` from a wire object whose `type` string
differs from `to_dtype_name<T>()` fails with the wrapped `SALException`
(`DecodeError`) and never returns a value. -/
theorem sal_c8_type_mismatch (dt : DType) (j : JObj) (s : String)
    (hget : getStringE j "type" = Except.ok s) (hne : s ≠ to_dtype_name dt) :
    ∃ m, atomicDecodeT dt j = Except.error (Err.sal m) := by
  have hinner : atomicDecodeInner dt j =
      Except.error (Err.sal "type name in json does not match template datatype") := by
    unfold atomicDecodeInner
    rw [hget]
    show (if s = to_dtype_name dt then
            match getPayloadE dt j "value" with
            | Except.error e => Except.error e
            | Except.ok v => Except.ok (mkAtomic dt v)
          else Except.error (Err.sal "type name in json does not match template datatype")) =
      Except.error (Err.sal "type name in json does not match template datatype")
    exact if_neg hne
  unfold atomicDecodeT
  rw [hinner]
  exact ⟨_, rfl⟩

/-- A wire object of type `"float32"` offered to the `Atomic<int32_t>`
decoder (the bit pattern is that of the float `3.14f`). -/
def c8wire : JObj := [("type", jstr "float32"),
  ("value", JVal.var (Var.atom .dfloat32 1078530011))]

/-- Claim C8 witness: decoding `Atomic<Int32>` from a `"float32"` wire
object fails with the wrapped decode error. -/
theorem sal_c8_type_mismatch_witness :
    ∃ m, atomicDecodeT .dint32 c8wire = Except.error (Err.sal m) :=
  sal_c8_type_mismatch .dint32 c8wire "float32" rfl (by decide)

/-- Claim C9 counterexample: `encode_summary()` of an array constructed
with shape `[3,4]` carries no `type` key at all (only `shape`), and
`encode_summary()` of a dictionary is the empty object, also without a
`type` key — contradicting the claimed `{type:"array", shape:[...]}` and
`{type:"dictionary"}` wire objects. -/
theorem sal_c9_summary_no_type_key :
    (match mkArrayD .duint8 [3, 4] with
     | .ok a => objGet (arrayEncodeSummary .duint8 a) "type"
     | .error _ => some (jstr "unreachable")) = none ∧
    objGet (dictEncodeSummary []) "type" = none := ⟨rfl, rfl⟩

/-- Claim C9 as amended: `encode_summary()` on an array produces an object
whose only key is `shape` (no `type`, no `value`, no `data`), and
`encode_summary()` on a dictionary produces the empty object (no `type`,
no `items`, no per-child data). -/
theorem sal_c9_summary_keys (dt : DType) (a : ArrObj dt)
    (attrs : List (String × AttrObj)) :
    arrayEncodeSummary dt a = [("shape", encodeShapeJ a.shape)] ∧
    objGet (arrayEncodeSummary dt a) "type" = none ∧
    objGet (arrayEncodeSummary dt a) "value" = none ∧
    objGet (arrayEncodeSummary dt a) "data" = none ∧
    dictEncodeSummary attrs = [] ∧
    objGet (dictEncodeSummary attrs) "type" = none ∧
    objGet (dictEncodeSummary attrs) "items" = none :=
  ⟨rfl, rfl, rfl, rfl, rfl, rfl, rfl⟩

/-- A full array wire object whose array definition lacks the mandatory
`encoding` key. -/
def c3wire : JObj := [("type", jstr "array"),
  ("value", JVal.jobj [("type", jstr "int8"), ("shape", JVal.jarr [ju64 1])])]

/-- Claim C3 counterexample: decoding `c3wire` through the dispatcher
reaches `Array<int8_t>::decode`, whose missing-`encoding` key access
throws a low-level JSON exception that escapes to the caller unwrapped
(the surfaced error is not the `SALException` decode-error kind). -/
theorem sal_c3_unwrapped_escape :
    decodeAttrGo 1 c3wire = Except.error (Err.json "cannot convert empty value") ∧
    ∀ m, Err.json "cannot convert empty value" ≠ Err.sal m :=
  ⟨rfl, fun _ h => Err.noConfusion h⟩

/-- Claim C3 as amended: the atomic decoders and the dictionary decoder do
wrap every internal failure into the single `SALException` decode-error
kind (each of their results is either a success or a wrapped `sal` error);
the array decode path (`Array<T>::decode`, which deliberately has no
`try`/`catch`) is the exception and lets low-level failures escape, as the
counterexample shows. -/
theorem sal_c3_atomic_dict_wrapped :
    (∀ (dt : DType) (j : JObj),
      (∃ m, atomicDecodeT dt j = Except.error (Err.sal m)) ∨
      (∃ a, atomicDecodeT dt j = Except.ok a)) ∧
    (∀ (fuel : Nat) (j : JObj),
      (∃ m, dictDecode fuel j = Except.error (Err.sal m)) ∨
      (∃ d, dictDecode fuel j = Except.ok d)) := by
  constructor
  · intro dt j
    cases h : atomicDecodeInner dt j with
    | ok a =>
      right
      exact ⟨a, by unfold atomicDecodeT; rw [h]⟩
    | error e =>
      left
      exact ⟨_, by unfold atomicDecodeT; rw [h]⟩
  · intro fuel j
    cases h : dictDecodeBody (decodeAttrGo fuel) j with
    | ok a =>
      right
      exact ⟨a, by unfold dictDecode wrapDictErr; rw [h]⟩
    | error e =>
      left
      exact ⟨_, by unfold dictDecode; rw [h]; exact rfl⟩

/-- Claim C7: decoding a full dictionary wire object skips every entry
whose value is JSON null (the key is absent from the result), while every
entry holding a JSON object is decoded recursively through the dispatcher
and inserted under its key. -/
theorem sal_c7_dict_null_skip (fuel : Nat) (items : List (String × JVal)) (k : String)
    (d : AttrObj) (hnd : (items.map Prod.fst).Nodup)
    (h : dictDecode fuel (wireDictOf items) = Except.ok d) :
    ((k, JVal.var Var.vnull) ∈ items → dictHasA d k = false) ∧
    (∀ o, (k, JVal.jobj o) ∈ items →
      ∃ a, decodeAttrGo fuel o = Except.ok a ∧ dictGetA d k = Except.ok a) := by
  have hb : dictDecodeBody (decodeAttrGo fuel) (wireDictOf items) =
      (match decodeItemsWith (decodeAttrGo fuel) items [] with
       | Except.error e => Except.error e
       | Except.ok m => Except.ok (AttrObj.dict false m)) := rfl
  unfold dictDecode at h
  rw [hb] at h
  cases hi : decodeItemsWith (decodeAttrGo fuel) items [] with
  | error e =>
    rw [hi] at h
    exact Except.noConfusion h
  | ok m =>
    rw [hi] at h
    have h2 : Except.ok (AttrObj.dict false m) = Except.ok d := h
    injection h2 with h2
    subst h2
    constructor
    · intro hmem
      have hnone := decodeItems_null_skipped (decodeAttrGo fuel) items k [] m hnd hi hmem rfl
      show (List.lookup k m).isSome = false
      rw [hnone]
      rfl
    · intro o hmem
      obtain ⟨a, ha, hl⟩ := decodeItems_obj_inserted (decodeAttrGo fuel) items k o [] m hnd hi hmem
      refine ⟨a, ha, ?_⟩
      show (match List.lookup k m with
            | some a => Except.ok a
            | none => Except.error (Err.outOfRange "map::at: key not found")) = Except.ok a
      rw [hl]

/-- The items of a concrete dictionary wire object: key `"a"` maps to JSON
null, key `"b"` to an encoded `Atomic<int8_t>` of value `5`. -/
def c7items : List (String × JVal) :=
  [("a", JVal.var Var.vnull), ("b", JVal.jobj (atomicEncode .dint8 (mkAtomic .dint8 5)))]

/-- What decoding `wireDictOf c7items` produces: a full dictionary holding
only the `"b"` child. -/
def c7dict : AttrObj := AttrObj.dict false [("b", AttrObj.atomic .dint8 (mkAtomic .dint8 5))]

/-- Claim C7 witness: the theorem applied to the concrete dictionary — the
null-valued key `"a"` is absent from the result and the object-valued key
`"b"` is present with its decoded child. -/
theorem sal_c7_dict_null_skip_witness :
    dictHasA c7dict "a" = false ∧
    (∃ a, decodeAttrGo 1 (atomicEncode .dint8 (mkAtomic .dint8 5)) = Except.ok a ∧
      dictGetA c7dict "b" = Except.ok a) :=
  ⟨(sal_c7_dict_null_skip 1 c7items "a" c7dict (by decide) rfl).1 (List.Mem.head _),
   (sal_c7_dict_null_skip 1 c7items "b" c7dict (by decide) rfl).2
     (atomicEncode .dint8 (mkAtomic .dint8 5))
     (List.mem_cons_of_mem _ (List.Mem.head _))⟩

/-- Claim C10: `Array<uint8_t>::decode` (the decoder `decode_array` routes
bool-element payloads to) only ever constructs its result through
`new Array<uint8_t>(shape)`, so every successful decode reports element
name `"uint8"` and element tag `ATTR_UINT8`; decoding the encoding of a
`BoolArray` through `decode_array` succeeds and yields such an instance
(the element name is no longer `"bool"`); and a full wire object whose
element type is neither `"uint8"` nor `"bool"` is rejected. -/
theorem sal_c10_bool_decodes_as_uint8 :
    (∀ (j : JObj) (a : ArrObj .duint8), arrayDecodeT .duint8 j = Except.ok a →
      a.elName = "uint8" ∧ a.elType = AttributeType.ATTR_UINT8) ∧
    (∀ b, mkBoolArray [2] = Except.ok b →
      ∃ p, arrayEncode .duint8 b = Except.ok p ∧
        ∃ a, decode_arrayM p = Except.ok (AttrObj.arr .duint8 a) ∧ a.elName = "uint8") ∧
    (∀ (j ad : JObj) (s : String) (a : ArrObj .duint8),
      objGet j "value" = some (JVal.jobj ad) → getStringE ad "type" = Except.ok s →
      s ≠ "bool" → s ≠ "uint8" → arrayDecodeT .duint8 j ≠ Except.ok a) := by
  refine ⟨?_, ?_, ?_⟩
  · intro j a h
    unfold arrayDecodeT at h
    repeat' split at h
    all_goals try exact Except.noConfusion h
    all_goals (
      injection h with h
      subst h
      have hm := mkArrayD_names _ _ _ (by assumption)
      exact ⟨hm.1, hm.2⟩)
  · intro b hb
    have hlit : mkBoolArray [2] = Except.ok
        ({ mtype := .ATTR_ARRAY, mtypeName := "array", elType := .ATTR_BOOL,
           elName := "bool", mdim := 1, shape := [2], strides := [1],
           data := [0, 0], isSummary := false } : ArrObj .duint8) := rfl
    rw [hlit] at hb
    injection hb with hb
    subst hb
    exact ⟨_, rfl, _, rfl, rfl⟩
  · intro j ad s a hval hty hs1 hs2 h
    unfold arrayDecodeT at h
    repeat' split at h
    all_goals try exact Except.noConfusion h
    all_goals simp_all [getObjectE, to_dtype_name]

/-- A full array wire object with element type `"bool"` (shape `[2]`,
base64 payload of the bytes `[1, 0]`), as a producer of boolean arrays
emits it. -/
def c10wire : JObj := [("type", jstr "array"),
  ("value", JVal.jobj [("type", jstr "bool"), ("shape", JVal.jarr [ju64 2]),
    ("encoding", jstr "base64"), ("data", jstr (base64Encode [1, 0]))])]

/-- The instance `Array<uint8_t>::decode` returns for `c10wire`. -/
def c10res : ArrObj .duint8 :=
  { mtype := .ATTR_ARRAY, mtypeName := "array", elType := .ATTR_UINT8,
    elName := "uint8", mdim := 1, shape := [2], strides := [1],
    data := [1, 0], isSummary := false }

/-- The `BoolArray({2})` instance (element name `"bool"`, zeroed buffer). -/
def c10boolArr : ArrObj .duint8 :=
  { mtype := .ATTR_ARRAY, mtypeName := "array", elType := .ATTR_BOOL,
    elName := "bool", mdim := 1, shape := [2], strides := [1],
    data := [0, 0], isSummary := false }

/-- A full array wire object whose element type (`"float64"`) is neither
`"uint8"` nor `"bool"`. -/
def c10badWire : JObj := [("type", jstr "array"),
  ("value", JVal.jobj [("type", jstr "float64")])]

/-- Claim C10 witness: the theorem applied at the concrete inputs — the
`"bool"` wire object decodes to element name `"uint8"`, the encoding of a
`BoolArray` round-trips through `decode_array` to an `Array<uint8_t>`,
and the `"float64"` wire object is rejected. -/
theorem sal_c10_bool_decodes_as_uint8_witness :
    (c10res.elName = "uint8" ∧ c10res.elType = AttributeType.ATTR_UINT8) ∧
    (∃ p, arrayEncode .duint8 c10boolArr = Except.ok p ∧
      ∃ a, decode_arrayM p = Except.ok (AttrObj.arr .duint8 a) ∧ a.elName = "uint8") ∧
    arrayDecodeT .duint8 c10badWire ≠ Except.ok c10res :=
  ⟨sal_c10_bool_decodes_as_uint8.1 c10wire c10res rfl,
   sal_c10_bool_decodes_as_uint8.2.1 c10boolArr rfl,
   sal_c10_bool_decodes_as_uint8.2.2 c10badWire [("type", jstr "float64")] "float64" c10res
     rfl rfl (by decide) (by decide)⟩
